import Mathlib

/-!
Verification of the governance-agent core (risk assessment, learning memory,
policy-gap detection, recommendation selection, event log) against its
natural-language specification.

The Python source is shallowly embedded: Python floats become exact rationals
(`ℚ`), `defaultdict`s become total functions with the default value, Python
dicts used as key-value stores become association lists or `Option`-valued
functions, and the mutable `LearningMemory` object becomes explicit state
passing over a `LearningMemory` structure.  Fallible code (`raise ValueError`)
returns `Except`.
-/

set_option maxHeartbeats 1000000

/-- Embeds `OutcomeRecord` from `learning_memory.py` (lines 15-29). -/
structure OutcomeRecord where
  day : ℤ
  term_id : String
  recommendation_type : String
  score_before : ℚ
  score_after : ℚ
deriving DecidableEq

/-- `OutcomeRecord.delta` (learning_memory.py line 24). -/
def OutcomeRecord.delta (r : OutcomeRecord) : ℚ :=
  r.score_after - r.score_before

/-- `OutcomeRecord.improved` (learning_memory.py line 29): `delta > 0.001`. -/
def OutcomeRecord.improved (r : OutcomeRecord) : Prop :=
  (0.001 : ℚ) < r.delta

instance (r : OutcomeRecord) : Decidable r.improved :=
  inferInstanceAs (Decidable (_ < _))

/-- Embeds the state of the `LearningMemory` class (`learning_memory.py`
lines 44-58).  The `defaultdict`s `attention_weights` (default `1.0`),
`_rec_deltas` (default `[]`) and `_breach_streaks` (default `0`) become total
functions; the lazily created `_pending` dict (line 92) becomes an
`Option`-valued function, `none` meaning the key is absent. -/
structure LearningMemory where
  attention_weights : String → ℚ
  rec_deltas : String → List ℚ
  outcomes : List OutcomeRecord
  breach_streaks : String → ℕ
  focus_history : List (ℤ × String)
  pending : String × String → Option (ℤ × ℚ)

/-- The freshly constructed memory (`LearningMemory.__init__`): every
attention weight is `1.0`, every streak `0`, no deltas, no outcomes, no
pending recommendations. -/
def LearningMemory.init : LearningMemory where
  attention_weights := fun _ => 1
  rec_deltas := fun _ => []
  outcomes := []
  breach_streaks := fun _ => 0
  focus_history := []
  pending := fun _ => none

/-- `LearningMemory.record_focus` (learning_memory.py lines 64-65). -/
def LearningMemory.record_focus (m : LearningMemory) (day : ℤ) (term_id : String) :
    LearningMemory :=
  { m with focus_history := m.focus_history ++ [(day, term_id)] }

/-- `LearningMemory.record_breach` (learning_memory.py lines 67-75): increment
the breach streak, then `attention = min(2.5, attention * (1 + 0.05 * min(streak, 5)))`. -/
def LearningMemory.record_breach (m : LearningMemory) (term_id : String) :
    LearningMemory :=
  let streak := m.breach_streaks term_id + 1
  { m with
    breach_streaks := fun t => if t = term_id then streak else m.breach_streaks t
    attention_weights := fun t =>
      if t = term_id then
        min (2.5 : ℚ) (m.attention_weights term_id * (1 + 0.05 * (min streak 5 : ℕ)))
      else m.attention_weights t }

/-- `LearningMemory.record_no_breach` (learning_memory.py lines 77-81): reset
the streak to `0`, then `attention = max(1.0, attention * 0.90)`. -/
def LearningMemory.record_no_breach (m : LearningMemory) (term_id : String) :
    LearningMemory :=
  { m with
    breach_streaks := fun t => if t = term_id then 0 else m.breach_streaks t
    attention_weights := fun t =>
      if t = term_id then max (1.0 : ℚ) (m.attention_weights term_id * 0.90)
      else m.attention_weights t }

/-- `LearningMemory.record_recommendation` (learning_memory.py lines 83-93):
store `(day, score_at_recommendation)` under the key `(term_id,
recommendation_type)`, overwriting any previous pending entry. -/
def LearningMemory.record_recommendation (m : LearningMemory) (day : ℤ)
    (term_id recommendation_type : String) (score_at_recommendation : ℚ) :
    LearningMemory :=
  { m with
    pending := fun k =>
      if k = (term_id, recommendation_type) then some (day, score_at_recommendation)
      else m.pending k }

/-- `LearningMemory.record_outcome` (learning_memory.py lines 95-134).  If no
pending entry is stored under `(term_id, recommendation_type)` the call
returns `None` and the state is untouched.  Otherwise the pending entry is
popped, an `OutcomeRecord` is appended to `outcomes` and its delta to
`_rec_deltas[recommendation_type]`, and the attention weight is updated:
`max(0.6, w * 0.85)` on improvement, `min(2.5, w * 1.10)` otherwise. -/
def LearningMemory.record_outcome (m : LearningMemory) (day : ℤ)
    (term_id recommendation_type : String) (score_after : ℚ) :
    Option OutcomeRecord × LearningMemory :=
  match m.pending (term_id, recommendation_type) with
  | none => (none, m)
  | some (_prev_day, score_before) =>
      let record : OutcomeRecord :=
        { day := day
          term_id := term_id
          recommendation_type := recommendation_type
          score_before := score_before
          score_after := score_after }
      let m' :=
        { m with
          pending := fun k =>
            if k = (term_id, recommendation_type) then none else m.pending k
          outcomes := m.outcomes ++ [record]
          rec_deltas := fun t =>
            if t = recommendation_type then m.rec_deltas t ++ [record.delta]
            else m.rec_deltas t
          attention_weights := fun t =>
            if t = term_id then
              if record.improved then max (0.6 : ℚ) (m.attention_weights term_id * 0.85)
              else min (2.5 : ℚ) (m.attention_weights term_id * 1.10)
            else m.attention_weights t }
      (some record, m')

/-- `LearningMemory.get_attention_weight` (learning_memory.py lines 140-141). -/
def LearningMemory.get_attention_weight (m : LearningMemory) (term_id : String) : ℚ :=
  m.attention_weights term_id

/-- `LearningMemory.get_effectiveness` (learning_memory.py lines 143-151):
mean of the recorded deltas for a type, `0.0` when none. -/
def LearningMemory.get_effectiveness (m : LearningMemory)
    (recommendation_type : String) : ℚ :=
  let deltas := m.rec_deltas recommendation_type
  if deltas = [] then 0 else deltas.sum / deltas.length

/-- Python `max(xs, key=key)`: the first element of maximal key (a later
element replaces the candidate only when its key is strictly greater). -/
def maxByKey (key : String → ℚ) : List String → String
  | [] => ""
  | x :: xs => xs.foldl (fun best t => if key best < key t then t else best) x

/-- `LearningMemory.preferred_recommendation_type` (learning_memory.py lines
153-160): `max(["add_validation", "move_earlier", "adjust_threshold"],
key=self.get_effectiveness)`. -/
def LearningMemory.preferred_recommendation_type (m : LearningMemory) : String :=
  maxByKey m.get_effectiveness ["add_validation", "move_earlier", "adjust_threshold"]

/-- One mutating call on the `LearningMemory` object, as used by the agent:
the three operations named by the claims plus `record_recommendation`
(needed for `record_outcome` to ever find a pending entry). -/
inductive MemOp where
  | breach (term_id : String)
  | noBreach (term_id : String)
  | recommend (day : ℤ) (term_id recommendation_type : String) (score : ℚ)
  | outcome (day : ℤ) (term_id recommendation_type : String) (score_after : ℚ)
deriving DecidableEq

/-- Whether a `MemOp` is a `record_outcome` call. -/
def MemOp.isOutcome : MemOp → Bool
  | .outcome _ _ _ _ => true
  | _ => false

/-- Apply one call to the memory state (the return value of
`record_outcome` is discarded). -/
def MemOp.apply (m : LearningMemory) : MemOp → LearningMemory
  | .breach t => m.record_breach t
  | .noBreach t => m.record_no_breach t
  | .recommend d t r s => m.record_recommendation d t r s
  | .outcome d t r s => (m.record_outcome d t r s).2

/-- The memory state after a sequence of calls, starting from the initial
state (all weights `1.0`). -/
def runMemOps (ops : List MemOp) : LearningMemory :=
  ops.foldl MemOp.apply LearningMemory.init

/-! ### Attention-weight invariants (learning memory) -/

lemma attention_bounds_apply (m : LearningMemory) (op : MemOp)
    (h : ∀ t, 0.6 ≤ m.attention_weights t ∧ m.attention_weights t ≤ 2.5) :
    ∀ t, 0.6 ≤ (op.apply m).attention_weights t ∧
      (op.apply m).attention_weights t ≤ 2.5 := by
  intro t
  cases op with
  | breach u =>
      simp only [MemOp.apply, LearningMemory.record_breach]
      by_cases ht : t = u
      · subst ht
        obtain ⟨hl, hu⟩ := h t
        simp only [if_pos rfl]
        have hμ : (0 : ℚ) ≤ ((min (m.breach_streaks t + 1) 5 : ℕ) : ℚ) := by
          positivity
        constructor
        · apply le_min
          · norm_num
          · nlinarith [mul_nonneg (by linarith : (0:ℚ) ≤ m.attention_weights t) hμ]
        · exact min_le_left _ _
      · simpa [ht] using h t
  | noBreach u =>
      simp only [MemOp.apply, LearningMemory.record_no_breach]
      by_cases ht : t = u
      · subst ht
        obtain ⟨hl, hu⟩ := h t
        simp only [if_pos rfl]
        constructor
        · exact le_trans (by norm_num) (le_max_left _ _)
        · apply max_le
          · norm_num
          · nlinarith
      · simpa [ht] using h t
  | recommend d u r s =>
      simpa [MemOp.apply, LearningMemory.record_recommendation] using h t
  | outcome d u r s =>
      simp only [MemOp.apply, LearningMemory.record_outcome]
      cases hp : m.pending (u, r) with
      | none => simpa using h t
      | some pr =>
          obtain ⟨pd, sb⟩ := pr
          simp only
          by_cases ht : t = u
          · subst ht
            obtain ⟨hl, hu⟩ := h t
            simp only [if_pos rfl]
            by_cases himp : OutcomeRecord.improved
                { day := d, term_id := t, recommendation_type := r,
                  score_before := sb, score_after := s }
            · rw [if_pos himp]
              constructor
              · exact le_max_left _ _
              · apply max_le
                · norm_num
                · nlinarith
            · rw [if_neg himp]
              constructor
              · apply le_min
                · norm_num
                · nlinarith
              · exact min_le_left _ _
          · simpa [ht] using h t

lemma attention_bounds_foldl (ops : List MemOp) :
    ∀ (m : LearningMemory),
      (∀ t, 0.6 ≤ m.attention_weights t ∧ m.attention_weights t ≤ 2.5) →
      ∀ t, 0.6 ≤ (ops.foldl MemOp.apply m).attention_weights t ∧
        (ops.foldl MemOp.apply m).attention_weights t ≤ 2.5 := by
  induction ops with
  | nil => intro m h; simpa using h
  | cons op rest ih =>
      intro m h
      exact ih (op.apply m) (attention_bounds_apply m op h)

lemma attention_above_one_apply (m : LearningMemory) (op : MemOp)
    (hop : op.isOutcome = false)
    (h : ∀ t, 1 ≤ m.attention_weights t) :
    ∀ t, 1 ≤ (op.apply m).attention_weights t := by
  intro t
  cases op with
  | breach u =>
      simp only [MemOp.apply, LearningMemory.record_breach]
      by_cases ht : t = u
      · subst ht
        have hl := h t
        simp only [if_pos rfl]
        have hμ : (0 : ℚ) ≤ ((min (m.breach_streaks t + 1) 5 : ℕ) : ℚ) := by
          positivity
        apply le_min
        · norm_num
        · nlinarith [mul_nonneg (by linarith : (0:ℚ) ≤ m.attention_weights t) hμ]
      · simpa [ht] using h t
  | noBreach u =>
      simp only [MemOp.apply, LearningMemory.record_no_breach]
      by_cases ht : t = u
      · subst ht
        simp only [if_pos rfl, if_true]
        exact le_trans (by norm_num) (le_max_left _ _)
      · simpa [ht] using h t
  | recommend d u r s =>
      simpa [MemOp.apply, LearningMemory.record_recommendation] using h t
  | outcome d u r s => simp [MemOp.isOutcome] at hop

lemma attention_above_one_foldl (ops : List MemOp) :
    ∀ (m : LearningMemory),
      (∀ t, 1 ≤ m.attention_weights t) →
      (ops.all fun op => !op.isOutcome) = true →
      ∀ t, 1 ≤ (ops.foldl MemOp.apply m).attention_weights t := by
  induction ops with
  | nil => intro m h _; simpa using h
  | cons op rest ih =>
      intro m h hall
      simp only [List.all_cons, Bool.and_eq_true, Bool.not_eq_true'] at hall
      exact ih (op.apply m) (attention_above_one_apply m op hall.1 h)
        (by simpa using hall.2)

/-- C1: starting from the initial state (all weights `1.0`), after every
finite sequence of `record_breach` / `record_no_breach` / `record_outcome`
(and `record_recommendation`) calls, every concept's attention weight lies in
`[0.6, 2.5]`; and if the sequence contains no `record_outcome` call, the
weight moreover never drops below `1.0`. -/
theorem attention_weight_invariant (ops : List MemOp) (t : String) :
    (0.6 ≤ (runMemOps ops).attention_weights t ∧
      (runMemOps ops).attention_weights t ≤ 2.5) ∧
    ((ops.all fun op => !op.isOutcome) = true →
      1 ≤ (runMemOps ops).attention_weights t) := by
  constructor
  · exact attention_bounds_foldl ops LearningMemory.init
      (fun _ => by constructor <;> · simp only [LearningMemory.init]; norm_num) t
  · intro hall
    exact attention_above_one_foldl ops LearningMemory.init
      (fun _ => by simp only [LearningMemory.init]; norm_num) hall t

/-- Witness for C1 at a concrete call sequence with no `record_outcome`. -/
theorem attention_weight_invariant_witness :
    (0.6 ≤ (runMemOps [.breach "a", .noBreach "a"]).attention_weights "a" ∧
      (runMemOps [.breach "a", .noBreach "a"]).attention_weights "a" ≤ 2.5) ∧
    1 ≤ (runMemOps [.breach "a", .noBreach "a"]).attention_weights "a" :=
  ⟨(attention_weight_invariant [.breach "a", .noBreach "a"] "a").1,
    (attention_weight_invariant [.breach "a", .noBreach "a"] "a").2 (by decide)⟩

/-- C3: `record_outcome` for a key with no pending recommendation returns
`None` and leaves the whole memory state unchanged. -/
theorem record_outcome_no_pending_noop (m : LearningMemory) (day : ℤ)
    (term_id recommendation_type : String) (score_after : ℚ)
    (h : m.pending (term_id, recommendation_type) = none) :
    m.record_outcome day term_id recommendation_type score_after = (none, m) := by
  simp [LearningMemory.record_outcome, h]

/-- Witness for C3 at the initial state, which has no pending entries. -/
theorem record_outcome_no_pending_noop_witness :
    LearningMemory.init.pending ("concept", "add_validation") = none ∧
    LearningMemory.init.record_outcome 3 "concept" "add_validation" 0.9 =
      (none, LearningMemory.init) :=
  ⟨rfl, record_outcome_no_pending_noop LearningMemory.init 3 "concept"
    "add_validation" 0.9 rfl⟩

/-- After one `record_recommendation` and one improving `record_outcome` on
concept `"c"`, the attention weight of `"c"` is `0.85 < 1`. -/
lemma reachable_low_attention :
    (runMemOps [.recommend 0 "c" "r" 0.5,
      .outcome 1 "c" "r" 0.9]).attention_weights "c" < 1 := by
  show ((LearningMemory.init.record_recommendation 0 "c" "r"
      0.5).record_outcome 1 "c" "r" 0.9).2.attention_weights "c" < 1
  simp only [LearningMemory.record_recommendation, LearningMemory.init,
    LearningMemory.record_outcome]
  norm_num [OutcomeRecord.improved, OutcomeRecord.delta]

/-- C9: a state with attention weight below `1.0` is reachable (one improving
`record_outcome` takes weight `1.0` to `0.85`), and from any state whose
weight is below `1.0` a single `record_no_breach` sets it to exactly `1.0` —
the no-breach path can strictly increase attention in one step. -/
theorem no_breach_restores_baseline :
    (∃ ops : List MemOp,
      (runMemOps ops).attention_weights "c" < 1) ∧
    ∀ (m : LearningMemory) (t : String),
      m.attention_weights t < 1 →
      (m.record_no_breach t).attention_weights t = 1 := by
  constructor
  · exact ⟨[.recommend 0 "c" "r" 0.5, .outcome 1 "c" "r" 0.9],
      reachable_low_attention⟩
  · intro m t h
    have hb : m.attention_weights t * 0.90 ≤ (1.0 : ℚ) := by nlinarith
    simp only [LearningMemory.record_no_breach, if_pos rfl, if_true]
    rw [max_eq_left hb]
    norm_num

/-- Witness for C9 at the concrete reachable state with weight `0.85`. -/
theorem no_breach_restores_baseline_witness :
    (runMemOps [.recommend 0 "c" "r" 0.5,
        .outcome 1 "c" "r" 0.9]).attention_weights "c" < 1 ∧
    ((runMemOps [.recommend 0 "c" "r" 0.5,
        .outcome 1 "c" "r" 0.9]).record_no_breach "c").attention_weights "c" = 1 :=
  ⟨reachable_low_attention,
    no_breach_restores_baseline.2 _ "c" reachable_low_attention⟩

/-! ### Policy checker (`policy_checker.py`) -/

/-- Embeds `TransformationFinding` from `sql_scanner.py` (lines 60-64). -/
structure TransformationFinding where
  pattern_type : String
  matched_text : String
  line_number : ℕ
deriving DecidableEq

/-- One entry of the policy ontology: the sets become lists, used only
through membership.  The ontology itself (`policy_ontology.yaml`, loaded by
`load_ontology`) is external configuration, so `detect_gaps` is embedded with
the ontology as an explicit parameter (an association list, first match wins
like a Python dict with unique keys). -/
structure OntologyEntry where
  required_validations : List String
  forbidden_transformations : List String
deriving DecidableEq

/-- Embeds `PolicyGap` from `policy_checker.py` (lines 34-41). -/
structure PolicyGap where
  column_name : String
  semantic_type : String
  missing_validation : String
  forbidden_found : String
  severity : String
  description : String
deriving DecidableEq

/-- `_SCANNER_TO_ONTOLOGY` (policy_checker.py lines 49-57), with
`dict.get`'s `None` default. -/
def scannerToOntology : String → Option String
  | "cast_integer" => some "cast_integer"
  | "cast" => some "cast_integer"
  | "coalesce" => some "coalesce"
  | "lower" => some "lower"
  | "concat_pii" => some "concat_pii"
  | "lpad" => some "concat_fallback"
  | "replace" => some "concat_fallback"
  | _ => none

/-- `_PATTERN_IMPLIES_MISSING` (policy_checker.py lines 60-72), with
`dict.get`'s `[]` default; keyed by (semantic type, scanner pattern). -/
def patternImpliesMissing : String × String → List String
  | ("email", "coalesce") => ["not_null", "format"]
  | ("amount", "cast_integer") => ["numeric", "range"]
  | ("amount", "coalesce") => ["range"]
  | ("id", "coalesce") => ["uniqueness"]
  | ("id", "lpad") => ["format"]
  | ("pii", "concat_pii") => ["masking"]
  | ("pii", "lower") => ["masking"]
  | _ => []

/-- `_severity_for` (policy_checker.py lines 75-80). -/
def severityFor (validation semantic_type : String) : String :=
  if validation = "masking" ∨ semantic_type = "pii" then "critical"
  else if validation = "uniqueness" ∨ validation = "not_null" ∨
      semantic_type = "id" then "high"
  else "medium"

/-- The deduplicated pattern types observed by the scanner
(`observed_patterns`, policy_checker.py line 101).  The Python code builds a
`set` and iterates over it; set iteration order is not specified by Python,
so it is modeled here as first-occurrence order.  Only membership in this
list is order-independent. -/
def dedupFirst (seen : List String) : List String → List String
  | [] => []
  | x :: xs =>
      if x ∈ seen then dedupFirst seen xs
      else x :: dedupFirst (x :: seen) xs

/-- Python `str.lower()`, character by character. -/
def pyLower (s : String) : String := ⟨s.data.map Char.toLower⟩

/-- The gaps emitted for one `(column, semantic type)` entry of
`column_semantic_map` (policy_checker.py lines 103-150): the
forbidden-transformation check over every observed pattern, then the PII
exposure check. -/
def gapsForColumn (ontology : List (String × OntologyEntry))
    (observed : List String) (pii_exposed : List String)
    (col sem_type : String) : List PolicyGap :=
  let sem_type_lower := pyLower sem_type
  match ontology.lookup sem_type_lower with
  | none => []
  | some policy =>
      let patternGaps :=
        observed.flatMap fun obs_pattern =>
          match scannerToOntology obs_pattern with
          | none => []
          | some ontology_key =>
              if ontology_key ∈ policy.forbidden_transformations then
                (patternImpliesMissing (sem_type_lower, obs_pattern)).filterMap
                  fun missing_val =>
                    if missing_val ∈ policy.required_validations then
                      some { column_name := col
                             semantic_type := sem_type_lower
                             missing_validation := missing_val
                             forbidden_found := obs_pattern
                             severity := severityFor missing_val sem_type_lower
                             description :=
                               "Column '" ++ col ++ "' (" ++ sem_type_lower ++
                               ") uses '" ++ obs_pattern ++
                               "' transformation which violates the '" ++
                               missing_val ++ "' policy requirement. " ++
                               "The ontology forbids '" ++ ontology_key ++
                               "' for semantic type '" ++ sem_type_lower ++ "'." }
                    else none
              else []
      let piiGaps :=
        if sem_type_lower = "pii" ∧ col ∈ pii_exposed then
          [{ column_name := col
             semantic_type := "pii"
             missing_validation := "masking"
             forbidden_found := "plain_select"
             severity := "critical"
             description :=
               "Column '" ++ col ++ "' contains PII data and is materialised " ++
               "in plain text without masking, tokenisation, or encryption. " ++
               "This violates the PII masking policy for analytical data products." }]
        else []
      patternGaps ++ piiGaps

/-- Deduplication by `(column_name, missing_validation)` keeping the first
occurrence (policy_checker.py lines 153-159). -/
def dedupGaps (seen : List (String × String)) : List PolicyGap → List PolicyGap
  | [] => []
  | g :: gs =>
      if (g.column_name, g.missing_validation) ∈ seen then dedupGaps seen gs
      else g :: dedupGaps ((g.column_name, g.missing_validation) :: seen) gs

/-- `severity_order.get(severity, 3)` (policy_checker.py line 162). -/
def severityKey (g : PolicyGap) : ℕ :=
  match g.severity with
  | "critical" => 0
  | "high" => 1
  | "medium" => 2
  | _ => 3

/-- The stable sort by severity (policy_checker.py line 163).  Python
`list.sort` is stable; a stable sort by a key taking the four values
`0..3` is exactly the concatenation of the four key-classes in key order,
each in its original relative order. -/
def sortBySeverity (l : List PolicyGap) : List PolicyGap :=
  (l.filter fun g => severityKey g = 0) ++ (l.filter fun g => severityKey g = 1) ++
    (l.filter fun g => severityKey g = 2) ++ (l.filter fun g => severityKey g = 3)

/-- Embeds `detect_gaps` (policy_checker.py lines 83-164).  `scan_flags` is
accepted and ignored, exactly as in the source.  `column_semantic_map` is a
Python dict, modeled as an association list iterated in insertion order. -/
def detect_gaps (ontology : List (String × OntologyEntry))
    (column_semantic_map : List (String × String))
    (scan_transformations : List TransformationFinding)
    (scan_flags : List String) (pii_exposed : List String) : List PolicyGap :=
  let observed_patterns :=
    dedupFirst [] (scan_transformations.map fun t => t.pattern_type)
  let gaps := column_semantic_map.flatMap fun cs =>
    gapsForColumn ontology observed_patterns pii_exposed cs.1 cs.2
  sortBySeverity (dedupGaps [] gaps)

/-- C7: with ontology `{"pii": {required: [masking], forbidden: [concat_pii]}}`,
column `full_name` typed `pii`, no transformation findings, and `full_name`
PII-exposed, `detect_gaps` returns exactly one gap: a `critical` `masking`
gap for `full_name`. -/
theorem detect_gaps_pii_exposure_single_gap :
    (detect_gaps [("pii", ⟨["masking"], ["concat_pii"]⟩)]
        [("full_name", "pii")] [] [] ["full_name"]).map
        (fun g => (g.column_name, g.missing_validation, g.severity)) =
      [("full_name", "masking", "critical")] := by
  decide

/-! ### Order (in)dependence of `detect_gaps` (C8) -/

/-- The `(column, missing validation, severity)` triple of a gap. -/
def gapTriple (g : PolicyGap) : String × String × String :=
  (g.column_name, g.missing_validation, g.severity)

/-- C8 counterexample: permuting the transformation findings permutes the
observed-pattern iteration order, which reorders two equal-severity gaps, so
`detect_gaps` is not order-independent as a list-valued function. -/
theorem detect_gaps_not_order_independent :
    ([TransformationFinding.mk "coalesce" "COALESCE(" 1,
        .mk "lpad" "LPAD(" 2].Perm
      [.mk "lpad" "LPAD(" 2, .mk "coalesce" "COALESCE(" 1]) ∧
    detect_gaps [("id", ⟨["uniqueness", "format"], ["coalesce", "concat_fallback"]⟩)]
        [("user_id", "id")]
        [.mk "coalesce" "COALESCE(" 1, .mk "lpad" "LPAD(" 2] [] [] ≠
      detect_gaps [("id", ⟨["uniqueness", "format"], ["coalesce", "concat_fallback"]⟩)]
        [("user_id", "id")]
        [.mk "lpad" "LPAD(" 2, .mk "coalesce" "COALESCE(" 1] [] [] := by
  exact ⟨by decide, by decide⟩


lemma mem_dedupFirst {a : String} :
    ∀ (seen l : List String), a ∈ dedupFirst seen l ↔ a ∈ l ∧ a ∉ seen := by
  intro seen l
  induction l generalizing seen with
  | nil => simp [dedupFirst]
  | cons x xs ih =>
      simp only [dedupFirst]
      by_cases hx : x ∈ seen
      · rw [if_pos hx, ih]
        constructor
        · rintro ⟨h1, h2⟩
          exact ⟨List.mem_cons_of_mem _ h1, h2⟩
        · rintro ⟨h1, h2⟩
          rcases List.mem_cons.1 h1 with rfl | h1
          · exact absurd hx h2
          · exact ⟨h1, h2⟩
      · rw [if_neg hx]
        constructor
        · intro hmem
          rcases List.mem_cons.1 hmem with rfl | hmem
          · exact ⟨List.mem_cons_self _ _, hx⟩
          · obtain ⟨h1, h2⟩ := (ih _).1 hmem
            have h2' : a ∉ seen := fun hs => h2 (List.mem_cons_of_mem _ hs)
            exact ⟨List.mem_cons_of_mem _ h1, h2'⟩
        · rintro ⟨h1, h2⟩
          rcases List.mem_cons.1 h1 with rfl | h1
          · exact List.mem_cons_self _ _
          · by_cases hax : a = x
            · subst hax; exact List.mem_cons_self _ _
            · refine List.mem_cons_of_mem _ ((ih _).2 ⟨h1, ?_⟩)
              intro hs
              rcases List.mem_cons.1 hs with h | h
              exacts [hax h, h2 h]

lemma mem_gapsForColumn_iff_of_mem_iff {ont : List (String × OntologyEntry)}
    {obs obs' pii : List String} {c st : String}
    (h : ∀ a, a ∈ obs ↔ a ∈ obs') (g : PolicyGap) :
    g ∈ gapsForColumn ont obs pii c st ↔ g ∈ gapsForColumn ont obs' pii c st := by
  simp only [gapsForColumn]
  rcases hl : List.lookup (pyLower st) ont with _ | policy
  · simp [hl]
  · simp only [hl, List.mem_append, List.mem_flatMap]
    constructor
    · rintro (⟨p, hp, hg⟩ | hg)
      · exact Or.inl ⟨p, (h p).1 hp, hg⟩
      · exact Or.inr hg
    · rintro (⟨p, hp, hg⟩ | hg)
      · exact Or.inl ⟨p, (h p).2 hp, hg⟩
      · exact Or.inr hg

lemma gapsForColumn_props {ont : List (String × OntologyEntry)}
    {obs pii : List String} {c st : String} {g : PolicyGap}
    (h : g ∈ gapsForColumn ont obs pii c st) :
    g.column_name = c ∧
      g.severity = severityFor g.missing_validation (pyLower st) := by
  simp only [gapsForColumn] at h
  rcases hl : List.lookup (pyLower st) ont with _ | policy
  · rw [hl] at h; simp at h
  · rw [hl] at h
    simp only [List.mem_append, List.mem_flatMap] at h
    rcases h with ⟨p, _, hg⟩ | hg
    · rcases hko : scannerToOntology p with _ | key
      · rw [hko] at hg; simp at hg
      · rw [hko] at hg
        dsimp only at hg
        by_cases hf : key ∈ policy.forbidden_transformations
        · rw [if_pos hf] at hg
          rcases List.mem_filterMap.1 hg with ⟨mv, _, hmv⟩
          by_cases hr : mv ∈ policy.required_validations
          · rw [if_pos hr] at hmv
            cases Option.some.inj hmv
            exact ⟨rfl, rfl⟩
          · rw [if_neg hr] at hmv; cases hmv
        · rw [if_neg hf] at hg; simp at hg
    · by_cases hc : pyLower st = "pii" ∧ c ∈ pii
      · rw [if_pos hc] at hg
        cases List.mem_singleton.1 hg
        refine ⟨rfl, ?_⟩
        rw [hc.1]
        simp [severityFor]
      · rw [if_neg hc] at hg; simp at hg

lemma nodup_keys_unique {l : List (String × String)}
    (h : (l.map Prod.fst).Nodup) {c a b : String}
    (ha : (c, a) ∈ l) (hb : (c, b) ∈ l) : a = b := by
  induction l with
  | nil => simp at ha
  | cons x xs ih =>
      simp only [List.map_cons, List.nodup_cons] at h
      rcases List.mem_cons.1 ha with ha' | ha' <;>
        rcases List.mem_cons.1 hb with hb' | hb'
      · have hab : (c, a) = (c, b) := ha'.trans hb'.symm
        exact (Prod.mk.injEq _ _ _ _ ▸ hab).2
      · exfalso
        apply h.1
        have hx1 : x.1 = c := by rw [← ha']
        rw [hx1]
        simpa using List.mem_map_of_mem Prod.fst hb'
      · exfalso
        apply h.1
        have hx1 : x.1 = c := by rw [← hb']
        rw [hx1]
        simpa using List.mem_map_of_mem Prod.fst ha'
      · exact ih h.2 ha' hb'

lemma mem_of_mem_dedupGaps {g : PolicyGap} :
    ∀ (seen : List (String × String)) (l : List PolicyGap),
      g ∈ dedupGaps seen l → g ∈ l := by
  intro seen l
  induction l generalizing seen with
  | nil => simp [dedupGaps]
  | cons x xs ih =>
      simp only [dedupGaps]
      by_cases hx : (x.column_name, x.missing_validation) ∈ seen
      · rw [if_pos hx]
        intro h
        exact List.mem_cons_of_mem _ (ih _ h)
      · rw [if_neg hx]
        intro h
        rcases List.mem_cons.1 h with rfl | h
        · exact List.mem_cons_self _ _
        · exact List.mem_cons_of_mem _ (ih _ h)

lemma dedupGaps_key_covered {g : PolicyGap} :
    ∀ (seen : List (String × String)) (l : List PolicyGap),
      g ∈ l → (g.column_name, g.missing_validation) ∉ seen →
      ∃ g' ∈ dedupGaps seen l, g'.column_name = g.column_name ∧
        g'.missing_validation = g.missing_validation := by
  intro seen l
  induction l generalizing seen with
  | nil => simp
  | cons x xs ih =>
      intro hg hseen
      simp only [dedupGaps]
      by_cases hx : (x.column_name, x.missing_validation) ∈ seen
      · rw [if_pos hx]
        rcases List.mem_cons.1 hg with rfl | hg
        · exact absurd hx hseen
        · exact ih seen hg hseen
      · rw [if_neg hx]
        rcases List.mem_cons.1 hg with rfl | hg
        · exact ⟨g, List.mem_cons_self _ _, rfl, rfl⟩
        · by_cases hkey :
              (g.column_name, g.missing_validation) =
                (x.column_name, x.missing_validation)
          · refine ⟨x, List.mem_cons_self _ _, ?_, ?_⟩
            · exact congrArg Prod.fst hkey.symm
            · exact congrArg Prod.snd hkey.symm
          · have hseen' :
                (g.column_name, g.missing_validation) ∉
                  (x.column_name, x.missing_validation) :: seen := by
              intro hmem
              rcases List.mem_cons.1 hmem with h | h
              exacts [hkey h, hseen h]
            rcases ih _ hg hseen' with ⟨g', hg', hcol, hmv⟩
            exact ⟨g', List.mem_cons_of_mem _ hg', hcol, hmv⟩

lemma severityKey_cases (g : PolicyGap) :
    severityKey g = 0 ∨ severityKey g = 1 ∨ severityKey g = 2 ∨
      severityKey g = 3 := by
  unfold severityKey
  split <;> simp

lemma mem_sortBySeverity {g : PolicyGap} {l : List PolicyGap} :
    g ∈ sortBySeverity l ↔ g ∈ l := by
  simp only [sortBySeverity, List.mem_append, List.mem_filter,
    decide_eq_true_eq]
  constructor
  · rintro (((⟨h, _⟩ | ⟨h, _⟩) | ⟨h, _⟩) | ⟨h, _⟩) <;> exact h
  · intro h
    rcases severityKey_cases g with h0 | h1 | h2 | h3
    · exact Or.inl (Or.inl (Or.inl ⟨h, h0⟩))
    · exact Or.inl (Or.inl (Or.inr ⟨h, h1⟩))
    · exact Or.inl (Or.inr ⟨h, h2⟩)
    · exact Or.inr ⟨h, h3⟩

lemma dedup_triple_mem {l : List PolicyGap}
    (hsev : ∀ g ∈ l, ∀ g' ∈ l, g.column_name = g'.column_name →
      g.missing_validation = g'.missing_validation → g.severity = g'.severity)
    (tr : String × String × String) :
    tr ∈ (dedupGaps [] l).map gapTriple ↔ tr ∈ l.map gapTriple := by
  simp only [List.mem_map]
  constructor
  · rintro ⟨g, hg, rfl⟩
    exact ⟨g, mem_of_mem_dedupGaps [] l hg, rfl⟩
  · rintro ⟨g, hg, rfl⟩
    obtain ⟨g', hg', hcol, hmv⟩ := dedupGaps_key_covered [] l hg (by simp)
    refine ⟨g', hg', ?_⟩
    have hsev' := hsev g' (mem_of_mem_dedupGaps [] l hg') g hg hcol hmv
    simp [gapTriple, hcol, hmv, hsev']

lemma gaps_sev_det (ont : List (String × OntologyEntry))
    (csm : List (String × String)) (obs pii : List String)
    (hnodup : (csm.map Prod.fst).Nodup) :
    ∀ g ∈ csm.flatMap (fun cs => gapsForColumn ont obs pii cs.1 cs.2),
      ∀ g' ∈ csm.flatMap (fun cs => gapsForColumn ont obs pii cs.1 cs.2),
        g.column_name = g'.column_name →
        g.missing_validation = g'.missing_validation →
        g.severity = g'.severity := by
  intro g hg g' hg' hcol hmv
  rcases List.mem_flatMap.1 hg with ⟨cs, hcs, hgin⟩
  rcases List.mem_flatMap.1 hg' with ⟨cs', hcs', hgin'⟩
  obtain ⟨hc1, hs1⟩ := gapsForColumn_props hgin
  obtain ⟨hc2, hs2⟩ := gapsForColumn_props hgin'
  have hkey : cs.1 = cs'.1 := by rw [← hc1, ← hc2, hcol]
  have hcs1 : (cs.1, cs.2) ∈ csm := by simpa using hcs
  have hcs2 : (cs.1, cs'.2) ∈ csm := by rw [hkey]; simpa using hcs'
  have hsnd : cs.2 = cs'.2 := nodup_keys_unique hnodup hcs1 hcs2
  rw [hs1, hs2, hmv, hsnd]

/-- C8 (amended): `detect_gaps` is deterministic — re-running it on the same
input yields the identical list — and, when the column semantic map has no
duplicate column (as a Python dict guarantees), permuting the
transformation-findings input preserves the set of
`(column, missing_validation, severity)` triples of the emitted gaps.  (The
full gap list is *not* permutation-invariant: see the counterexample.) -/
theorem detect_gaps_deterministic_and_triple_set_order_independent
    (ontology : List (String × OntologyEntry))
    (column_semantic_map : List (String × String))
    (ts ts' : List TransformationFinding) (flags pii : List String)
    (hnodup : (column_semantic_map.map Prod.fst).Nodup)
    (hperm : ts.Perm ts') :
    detect_gaps ontology column_semantic_map ts flags pii =
      detect_gaps ontology column_semantic_map ts flags pii ∧
    ∀ tr : String × String × String,
      tr ∈ (detect_gaps ontology column_semantic_map ts flags pii).map gapTriple ↔
        tr ∈ (detect_gaps ontology column_semantic_map ts' flags pii).map gapTriple := by
  refine ⟨rfl, ?_⟩
  intro tr
  have hobs : ∀ a,
      a ∈ dedupFirst [] (ts.map fun t => t.pattern_type) ↔
        a ∈ dedupFirst [] (ts'.map fun t => t.pattern_type) := by
    intro a
    rw [mem_dedupFirst, mem_dedupFirst,
      (hperm.map fun t => t.pattern_type).mem_iff]
  have hgaps : ∀ g : PolicyGap,
      g ∈ column_semantic_map.flatMap (fun cs =>
        gapsForColumn ontology (dedupFirst [] (ts.map fun t => t.pattern_type))
          pii cs.1 cs.2) ↔
      g ∈ column_semantic_map.flatMap (fun cs =>
        gapsForColumn ontology (dedupFirst [] (ts'.map fun t => t.pattern_type))
          pii cs.1 cs.2) := by
    intro g
    simp only [List.mem_flatMap]
    constructor
    · rintro ⟨cs, hcs, hgin⟩
      exact ⟨cs, hcs, (mem_gapsForColumn_iff_of_mem_iff hobs g).1 hgin⟩
    · rintro ⟨cs, hcs, hgin⟩
      exact ⟨cs, hcs, (mem_gapsForColumn_iff_of_mem_iff hobs g).2 hgin⟩
  simp only [detect_gaps]
  have sortmem : ∀ (l : List PolicyGap),
      tr ∈ (sortBySeverity l).map gapTriple ↔ tr ∈ l.map gapTriple := by
    intro l
    simp only [List.mem_map]
    constructor
    · rintro ⟨g, hg, rfl⟩; exact ⟨g, mem_sortBySeverity.1 hg, rfl⟩
    · rintro ⟨g, hg, rfl⟩; exact ⟨g, mem_sortBySeverity.2 hg, rfl⟩
  rw [sortmem, sortmem,
    dedup_triple_mem (gaps_sev_det ontology column_semantic_map _ pii hnodup),
    dedup_triple_mem (gaps_sev_det ontology column_semantic_map _ pii hnodup)]
  simp only [List.mem_map]
  constructor
  · rintro ⟨g, hg, rfl⟩; exact ⟨g, (hgaps g).1 hg, rfl⟩
  · rintro ⟨g, hg, rfl⟩; exact ⟨g, (hgaps g).2 hg, rfl⟩

/-- Witness for the amended C8 theorem at a concrete permuted pair. -/
theorem detect_gaps_triple_set_order_independent_witness :
    (("user_id", "uniqueness", "high") ∈
      (detect_gaps
        [("id", ⟨["uniqueness", "format"], ["coalesce", "concat_fallback"]⟩)]
        [("user_id", "id")]
        [.mk "coalesce" "COALESCE(" 1, .mk "lpad" "LPAD(" 2] [] []).map gapTriple) ↔
    (("user_id", "uniqueness", "high") ∈
      (detect_gaps
        [("id", ⟨["uniqueness", "format"], ["coalesce", "concat_fallback"]⟩)]
        [("user_id", "id")]
        [.mk "lpad" "LPAD(" 2, .mk "coalesce" "COALESCE(" 1] [] []).map gapTriple) :=
  (detect_gaps_deterministic_and_triple_set_order_independent _ _ _ _ _ _
    (by decide) (by decide)).2 ("user_id", "uniqueness", "high")

/-! ### Recommendation selector (`agent.py` lines 171-252) -/

/-- Embeds the recommendation dict returned by `_choose_recommendation`. -/
structure Recommendation where
  type : String
  action : String
  target_column : String
  validation : String
  rationale : String
deriving DecidableEq

/-- Embeds `_choose_recommendation` (agent.py lines 171-252).  The `scan`
dict enters only through `scan.get("summary_flags")`, so the function takes
that list directly; `memory` enters only through
`preferred_recommendation_type()`.  The critical-PII loop returns at the
first gap with severity `critical` and missing validation `masking`
(`List.find?`). -/
def choose_recommendation (gaps : List PolicyGap) (summary_flags : List String)
    (memory : LearningMemory) : Recommendation :=
  let preferred := memory.preferred_recommendation_type
  match gaps with
  | top :: _ =>
      match gaps.find? (fun g =>
          g.severity == "critical" && g.missing_validation == "masking") with
      | some g =>
          { type := "add_validation"
            action := "Add masking validation for PII column '" ++
              g.column_name ++ "'"
            target_column := g.column_name
            validation := "masking"
            rationale := "Column '" ++ g.column_name ++
              "' exposes PII in plain text. " ++
              "A masking or tokenisation step must be added upstream." }
      | none =>
          if preferred = "move_earlier" then
            { type := "move_earlier"
              action := "Move '" ++ top.missing_validation ++
                "' validation for '" ++ top.column_name ++
                "' to the staging model"
              target_column := top.column_name
              validation := top.missing_validation
              rationale := "The '" ++ top.missing_validation ++
                "' check is applied too late in the pipeline. Moving it to " ++
                "staging prevents corrupt '" ++ top.column_name ++
                "' values from propagating downstream." }
          else
            { type := "add_validation"
              action := "Add '" ++ top.missing_validation ++
                "' validation for column '" ++ top.column_name ++ "' (" ++
                top.semantic_type ++ ")"
              target_column := top.column_name
              validation := top.missing_validation
              rationale := "Policy requires '" ++ top.missing_validation ++
                "' for semantic type '" ++ top.semantic_type ++
                "', but this check is absent. Forbidden transform '" ++
                top.forbidden_found ++ "' was detected." }
  | [] =>
      match summary_flags with
      | flag :: _ =>
          { type := "add_validation"
            action := "Add data quality test to address: " ++ flag
            target_column := "multiple"
            validation := "format"
            rationale := "Static SQL scan identified a risk pattern: " ++
              flag ++ ". Adding an explicit DQ test will surface violations " ++
              "before downstream impact." }
      | [] =>
          { type := "adjust_threshold"
            action := "Review and adjust DQ rule threshold based on current " ++
              "score trajectory"
            target_column := "n/a"
            validation := "n/a"
            rationale := "No specific SQL pattern gap detected. The threshold " ++
              "may not reflect achievable data quality given current pipeline " ++
              "constraints." }

/-- C4: the recommendation selector is a deterministic 4-branch priority:
any critical masking gap wins outright (`add_validation` targeting such a
gap's column); otherwise the first gap of the severity-sorted list is used,
with type `move_earlier` exactly when the memory prefers `move_earlier` and
`add_validation` otherwise; otherwise a nonempty summary-flag list yields an
`add_validation` keyed to the first flag; otherwise `adjust_threshold`. -/
theorem choose_recommendation_priority (gaps : List PolicyGap)
    (summary_flags : List String) (memory : LearningMemory) :
    ((∃ g ∈ gaps, g.severity = "critical" ∧ g.missing_validation = "masking") →
      (choose_recommendation gaps summary_flags memory).type = "add_validation" ∧
      (choose_recommendation gaps summary_flags memory).validation = "masking" ∧
      ∃ g ∈ gaps, g.severity = "critical" ∧ g.missing_validation = "masking" ∧
        (choose_recommendation gaps summary_flags memory).target_column =
          g.column_name) ∧
    (∀ top rest, gaps = top :: rest →
      (¬ ∃ g ∈ gaps, g.severity = "critical" ∧ g.missing_validation = "masking") →
      ((choose_recommendation gaps summary_flags memory).type =
        (if memory.preferred_recommendation_type = "move_earlier" then
          "move_earlier" else "add_validation")) ∧
      (choose_recommendation gaps summary_flags memory).target_column =
        top.column_name ∧
      (choose_recommendation gaps summary_flags memory).validation =
        top.missing_validation) ∧
    (∀ flag rest, gaps = [] → summary_flags = flag :: rest →
      (choose_recommendation gaps summary_flags memory).type =
        "add_validation" ∧
      (choose_recommendation gaps summary_flags memory).target_column =
        "multiple" ∧
      (choose_recommendation gaps summary_flags memory).validation = "format" ∧
      (choose_recommendation gaps summary_flags memory).action =
        "Add data quality test to address: " ++ flag) ∧
    (gaps = [] → summary_flags = [] →
      (choose_recommendation gaps summary_flags memory).type =
        "adjust_threshold") := by
  cases gaps with
  | nil =>
      refine ⟨by simp, by simp, ?_, ?_⟩
      · rintro flag rest - rfl
        simp [choose_recommendation]
      · rintro - rfl
        simp [choose_recommendation]
  | cons top rest =>
      cases hfind : (top :: rest).find? (fun g =>
          g.severity == "critical" && g.missing_validation == "masking") with
      | some g =>
          have hmem := List.mem_of_find?_eq_some hfind
          have hpred := List.find?_some hfind
          simp only [Bool.and_eq_true, beq_iff_eq] at hpred
          refine ⟨?_, ?_, by intro _ _ h _; simp at h, by intro h _; simp at h⟩
          · intro _
            refine ⟨?_, ?_, g, hmem, hpred.1, hpred.2, ?_⟩ <;>
              simp [choose_recommendation, hfind]
          · rintro top' rest' h hnone
            exact absurd ⟨g, hmem, hpred.1, hpred.2⟩ hnone
      | none =>
          refine ⟨?_, ?_, by intro _ _ h _; simp at h, by intro h _; simp at h⟩
          · rintro ⟨g, hmem, hcrit, hmask⟩
            have := List.find?_eq_none.1 hfind g hmem
            simp [hcrit, hmask] at this
          · rintro top' rest' h hnone
            cases h
            by_cases hpref : memory.preferred_recommendation_type = "move_earlier"
            · refine ⟨?_, ?_, ?_⟩ <;> simp [choose_recommendation, hfind, hpref]
            · refine ⟨?_, ?_, ?_⟩ <;> simp [choose_recommendation, hfind, hpref]

/-- Witness for C4 at a concrete gap list containing a critical masking gap. -/
theorem choose_recommendation_priority_witness :
    (choose_recommendation
        [⟨"full_name", "pii", "masking", "plain_select", "critical", "d"⟩] []
        LearningMemory.init).type = "add_validation" ∧
    (choose_recommendation
        [⟨"full_name", "pii", "masking", "plain_select", "critical", "d"⟩] []
        LearningMemory.init).validation = "masking" :=
  ⟨((choose_recommendation_priority _ _ _).1 (by decide)).1,
    ((choose_recommendation_priority _ _ _).1 (by decide)).2.1⟩

/-! ### Event emitter (`event_emitter.py`) -/

/-- Embeds one row of `EVENT_LOG` (the eight-field reasoning event).
`context` and `metrics` are JSON-serialised dicts in the source
(`json.dumps`); the serialisation is injective packaging, so the dicts are
stored as association lists directly. -/
structure ReasoningEvent where
  timestamp : String
  event_type : String
  entity_type : String
  entity_id : String
  entity_name : String
  context : List (String × String)
  metrics : List (String × String)
  explanation : String
deriving DecidableEq

/-- `VALID_EVENT_TYPES` (event_emitter.py lines 22-33): the ten registered
event types. -/
def VALID_EVENT_TYPES : List String :=
  ["rule_breached", "risk_assessed", "focus_selected", "investigation_started",
    "lineage_traced", "sql_analysis_completed", "policy_gap_detected",
    "recommendation_created", "outcome_measured", "learning_updated"]

/-- Embeds `emit_event` (event_emitter.py lines 36-74).  The wall-clock
timestamp (`datetime.now`) is passed in as a parameter; the `EVENT_LOG`
table is the explicit `log` list, an insert is an append, and `lastrowid`
is the new length.  An unknown `event_type` raises `ValueError` before any
insert, embedded as `Except.error` carrying the message (the sorted type
list of the Python message is a constant). -/
def emit_event (timestamp event_type entity_type entity_id entity_name : String)
    (context_dict metrics_dict : List (String × String))
    (explanation_text : String) (log : List ReasoningEvent) :
    Except String (List ReasoningEvent × ℕ) :=
  if event_type ∉ VALID_EVENT_TYPES then
    .error ("Unknown event_type '" ++ event_type ++ "'. Must be one of: " ++
      "['focus_selected', 'investigation_started', 'learning_updated', " ++
      "'lineage_traced', 'outcome_measured', 'policy_gap_detected', " ++
      "'recommendation_created', 'risk_assessed', 'rule_breached', " ++
      "'sql_analysis_completed']")
  else
    let row : ReasoningEvent :=
      { timestamp := timestamp, event_type := event_type,
        entity_type := entity_type, entity_id := entity_id,
        entity_name := entity_name, context := context_dict,
        metrics := metrics_dict, explanation := explanation_text }
    .ok (log ++ [row], log.length + 1)

/-- C6: the log-append primitive fails on any `event_type` outside the ten
registered constants, appending nothing (no `ok` result exists), and
succeeds exactly on the registered types, appending one row. -/
theorem emit_event_rejects_unknown_type
    (timestamp event_type entity_type entity_id entity_name : String)
    (context_dict metrics_dict : List (String × String))
    (explanation_text : String) (log : List ReasoningEvent) :
    (event_type ∉ VALID_EVENT_TYPES →
      (∃ msg, emit_event timestamp event_type entity_type entity_id entity_name
        context_dict metrics_dict explanation_text log = .error msg) ∧
      ∀ log' i, emit_event timestamp event_type entity_type entity_id
        entity_name context_dict metrics_dict explanation_text log ≠
          .ok (log', i)) ∧
    (event_type ∈ VALID_EVENT_TYPES →
      emit_event timestamp event_type entity_type entity_id entity_name
        context_dict metrics_dict explanation_text log =
        .ok (log ++
          [{ timestamp := timestamp, event_type := event_type,
             entity_type := entity_type, entity_id := entity_id,
             entity_name := entity_name, context := context_dict,
             metrics := metrics_dict, explanation := explanation_text }],
          log.length + 1)) := by
  constructor
  · intro h
    constructor
    · exact ⟨_, by rw [emit_event, if_pos h]⟩
    · intro log' i heq
      rw [emit_event, if_pos h] at heq
      cases heq
  · intro h
    rw [emit_event, if_neg (by simpa using h)]

/-- Witness for C6: `"bogus"` is rejected, `"rule_breached"` appends a row. -/
theorem emit_event_rejects_unknown_type_witness :
    ((∃ msg, emit_event "t" "bogus" "rule" "r1" "n" [] [] "e" [] = .error msg) ∧
      ∀ log' i, emit_event "t" "bogus" "rule" "r1" "n" [] [] "e" [] ≠
        .ok (log', i)) ∧
    emit_event "t" "rule_breached" "rule" "r1" "n" [] [] "e" [] =
      .ok ([{ timestamp := "t", event_type := "rule_breached",
              entity_type := "rule", entity_id := "r1", entity_name := "n",
              context := [], metrics := [], explanation := "e" }], 1) :=
  ⟨(emit_event_rejects_unknown_type "t" "bogus" "rule" "r1" "n" [] [] "e"
      []).1 (by decide),
    (emit_event_rejects_unknown_type "t" "rule_breached" "rule" "r1" "n" [] []
      "e" []).2 (by decide)⟩

/-! ### SQL scanner summary flags (`sql_scanner.py` lines 140-178) -/

/-- `result.join_count` (sql_scanner.py lines 141-143): the number of
`"join"` findings. -/
def join_count (transformations : List TransformationFinding) : ℕ :=
  (transformations.filter fun t => t.pattern_type == "join").length

/-- `result.has_non_equi_join` (sql_scanner.py lines 144-146). -/
def has_non_equi_join (transformations : List TransformationFinding) : Bool :=
  transformations.any fun t => t.pattern_type == "non_equi_join"

/-- The summary-flag construction of `scan_model` (sql_scanner.py lines
153-178), as a function of the transformation findings produced by the
pattern-matching phase and the PII-exposed column list.
`transformation_types` is a Python set used only through `in`, modeled by
list membership; the two f-strings are modeled with `toString`. -/
def summary_flags (transformations : List TransformationFinding)
    (pii_columns_exposed : List String) : List String :=
  let transformation_types := transformations.map fun t => t.pattern_type
  (if "cast_integer" ∈ transformation_types then
      ["INTEGER_CAST: decimal precision at risk"]
    else if "cast" ∈ transformation_types then
      ["CAST: type conversion may alter semantics"]
    else []) ++
  (if "coalesce" ∈ transformation_types then
      ["COALESCE: null masking detected — root cause obscured"]
    else []) ++
  (if has_non_equi_join transformations then
      ["NON_EQUI_JOIN: potential row fan-out on join condition"]
    else if 0 < join_count transformations then
      ["JOIN_PRESENT: " ++ toString (join_count transformations) ++
        " join(s) detected"]
    else []) ++
  (if "lower" ∈ transformation_types ∨ "upper" ∈ transformation_types then
      ["CASE_TRANSFORM: LOWER/UPPER applied — format risk"]
    else []) ++
  (if "concat_pii" ∈ transformation_types then
      ["CONCAT_PII: PII fields concatenated in plain text"]
    else []) ++
  (if pii_columns_exposed ≠ [] then
      ["PII_EXPOSED: " ++ toString pii_columns_exposed ++ " present unmasked"]
    else []) ++
  (if "lpad" ∈ transformation_types then
      ["LPAD: ID formatting without null guard"]
    else []) ++
  (if "date_truncation" ∈ transformation_types then
      ["DATE_TRUNCATION: temporal granularity may be lost"]
    else [])

lemma string_ne_of_data_head {s t : String} {c d : Char} {cs ds : List Char}
    (hs : s.data = c :: cs) (ht : t.data = d :: ds) (hcd : c ≠ d) :
    s ≠ t := by
  intro h
  rw [h, ht] at hs
  exact hcd (List.head_eq_of_cons_eq hs.symm)

lemma join_flag_data (x y : String) :
    ("JOIN_PRESENT: " ++ x ++ y).data =
      'J' :: ("OIN_PRESENT: ".data ++ x.data ++ y.data) := by
  simp [String.data_append]

lemma pii_flag_data (x y : String) :
    ("PII_EXPOSED: " ++ x ++ y).data =
      'P' :: ("II_EXPOSED: ".data ++ x.data ++ y.data) := by
  simp [String.data_append]

lemma mem_ite_singleton {α : Type} {c : Prop} [Decidable c] {a b : α} :
    (a ∈ if c then [b] else []) ↔ (c ∧ a = b) := by
  by_cases hc : c <;> simp [hc]

lemma mem_ite_ite_singleton {α : Type} {c₁ c₂ : Prop} [Decidable c₁]
    [Decidable c₂] {a b₁ b₂ : α} :
    (a ∈ if c₁ then [b₁] else if c₂ then [b₂] else []) ↔
      ((c₁ ∧ a = b₁) ∨ (¬c₁ ∧ c₂ ∧ a = b₂)) := by
  by_cases h1 : c₁ <;> by_cases h2 : c₂ <;> simp [h1, h2]

lemma ne_of_head? {s t : String} (h : s.data.head? ≠ t.data.head?) : s ≠ t :=
  fun e => h (by rw [e])

lemma join_flag_head (x y : String) :
    ("JOIN_PRESENT: " ++ x ++ y).data.head? = some 'J' := by
  rw [join_flag_data]; rfl

lemma pii_flag_head (x y : String) :
    ("PII_EXPOSED: " ++ x ++ y).data.head? = some 'P' := by
  rw [pii_flag_data]; rfl

lemma join_flag_ne (x y t : String) (ht : t.data.head? ≠ some 'J') :
    ("JOIN_PRESENT: " ++ x ++ y : String) ≠ t :=
  fun e => ht (by rw [← e, join_flag_head])

/-- C10: in the scanner's summary flags the two cast flags and the two join
flags are mutually exclusive: the generic CAST flag appears exactly when a
`cast` pattern was found and no `cast_integer` pattern was; the
JOIN_PRESENT count flag appears exactly when joins were found and no
non-equi join was; and neither pair can appear together. -/
theorem summary_flags_cast_join_exclusive
    (transformations : List TransformationFinding) (pii : List String) :
    (("CAST: type conversion may alter semantics" ∈
        summary_flags transformations pii) ↔
      ("cast" ∈ transformations.map (fun t => t.pattern_type) ∧
        "cast_integer" ∉ transformations.map (fun t => t.pattern_type))) ∧
    (¬("INTEGER_CAST: decimal precision at risk" ∈
        summary_flags transformations pii ∧
      "CAST: type conversion may alter semantics" ∈
        summary_flags transformations pii)) ∧
    ((∃ n : ℕ, ("JOIN_PRESENT: " ++ toString n ++ " join(s) detected") ∈
        summary_flags transformations pii) ↔
      (0 < join_count transformations ∧
        has_non_equi_join transformations = false)) ∧
    (¬((∃ n : ℕ, ("JOIN_PRESENT: " ++ toString n ++ " join(s) detected") ∈
        summary_flags transformations pii) ∧
      "NON_EQUI_JOIN: potential row fan-out on join condition" ∈
        summary_flags transformations pii)) := by
  have hCJP : ∀ x y : String,
      ("CAST: type conversion may alter semantics" : String) ≠
        "JOIN_PRESENT: " ++ x ++ y :=
    fun x y => ne_of_head? (by rw [join_flag_head]; decide)
  have hCPII : ∀ x y : String,
      ("CAST: type conversion may alter semantics" : String) ≠
        "PII_EXPOSED: " ++ x ++ y :=
    fun x y => ne_of_head? (by rw [pii_flag_head]; decide)
  have hICJP : ∀ x y : String,
      ("INTEGER_CAST: decimal precision at risk" : String) ≠
        "JOIN_PRESENT: " ++ x ++ y :=
    fun x y => ne_of_head? (by rw [join_flag_head]; decide)
  have hICPII : ∀ x y : String,
      ("INTEGER_CAST: decimal precision at risk" : String) ≠
        "PII_EXPOSED: " ++ x ++ y :=
    fun x y => ne_of_head? (by rw [pii_flag_head]; decide)
  have hNEJP : ∀ x y : String,
      ("NON_EQUI_JOIN: potential row fan-out on join condition" : String) ≠
        "JOIN_PRESENT: " ++ x ++ y :=
    fun x y => ne_of_head? (by rw [join_flag_head]; decide)
  have hNEPII : ∀ x y : String,
      ("NON_EQUI_JOIN: potential row fan-out on join condition" : String) ≠
        "PII_EXPOSED: " ++ x ++ y :=
    fun x y => ne_of_head? (by rw [pii_flag_head]; decide)
  have hJP_IC := fun x y : String =>
    join_flag_ne x y "INTEGER_CAST: decimal precision at risk" (by decide)
  have hJP_C := fun x y : String =>
    join_flag_ne x y "CAST: type conversion may alter semantics" (by decide)
  have hJP_CO := fun x y : String =>
    join_flag_ne x y "COALESCE: null masking detected — root cause obscured"
      (by decide)
  have hJP_NE := fun x y : String =>
    join_flag_ne x y "NON_EQUI_JOIN: potential row fan-out on join condition"
      (by decide)
  have hJP_CT := fun x y : String =>
    join_flag_ne x y "CASE_TRANSFORM: LOWER/UPPER applied — format risk"
      (by decide)
  have hJP_CP := fun x y : String =>
    join_flag_ne x y "CONCAT_PII: PII fields concatenated in plain text"
      (by decide)
  have hJP_LP := fun x y : String =>
    join_flag_ne x y "LPAD: ID formatting without null guard" (by decide)
  have hJP_DT := fun x y : String =>
    join_flag_ne x y "DATE_TRUNCATION: temporal granularity may be lost"
      (by decide)
  have hJPPII : ∀ x y u v : String,
      ("JOIN_PRESENT: " ++ x ++ y : String) ≠ "PII_EXPOSED: " ++ u ++ v :=
    fun x y u v => join_flag_ne x y _ (by rw [pii_flag_head]; decide)
  refine ⟨?_, ?_, ?_, ?_⟩
  · constructor
    · intro h
      simp only [summary_flags, List.mem_append, mem_ite_singleton,
        mem_ite_ite_singleton] at h
      simp [hCJP, hCPII] at h
      simp only [List.mem_map, not_exists, not_and]
      tauto
    · rintro ⟨hc, hnc⟩
      simp only [summary_flags, List.mem_append, mem_ite_singleton,
        mem_ite_ite_singleton]
      simp [hc, hnc]
  · rintro ⟨h1, h2⟩
    simp only [summary_flags, List.mem_append, mem_ite_singleton,
      mem_ite_ite_singleton] at h1 h2
    simp [hCJP, hCPII] at h2
    simp [hICJP, hICPII] at h1
    tauto
  · constructor
    · rintro ⟨n, h⟩
      simp only [summary_flags, List.mem_append, mem_ite_singleton,
        mem_ite_ite_singleton] at h
      simp [hJP_IC, hJP_C, hJP_CO, hJP_NE, hJP_CT, hJP_CP, hJP_LP, hJP_DT,
        hJPPII] at h
      tauto
    · rintro ⟨hjc, hne⟩
      refine ⟨join_count transformations, ?_⟩
      simp only [summary_flags, List.mem_append, mem_ite_singleton,
        mem_ite_ite_singleton]
      simp [hjc, hne]
  · rintro ⟨⟨n, h1⟩, h2⟩
    simp only [summary_flags, List.mem_append, mem_ite_singleton,
      mem_ite_ite_singleton] at h1 h2
    simp [hJP_IC, hJP_C, hJP_CO, hJP_NE, hJP_CT, hJP_CP, hJP_LP, hJP_DT,
      hJPPII] at h1
    simp [hNEJP, hNEPII] at h2
    rw [h1.1] at h2
    cases h2

/-! ### Trend factor and risk (`agent.py`) -/

lemma list_range_map_sum (f : ℕ → ℚ) (n : ℕ) :
    ((List.range n).map f).sum = ∑ i in Finset.range n, f i := by
  induction n with
  | zero => simp
  | succ n ih =>
      rw [List.range_succ, List.map_append, List.sum_append,
        Finset.sum_range_succ, ih]
      simp

lemma list_sum_eq_sum_getD (l : List ℚ) :
    l.sum = ∑ i in Finset.range l.length, l.getD i 0 := by
  induction l with
  | nil => simp
  | cons a t ih =>
      rw [List.sum_cons, List.length_cons, Finset.sum_range_succ']
      simp only [List.getD_cons_succ, List.getD_cons_zero, ih]
      ring

lemma zip_map_sum (g : ℚ × ℚ → ℚ) :
    ∀ (a l : List ℚ), a.length = l.length →
      ((a.zip l).map g).sum =
        ∑ i in Finset.range l.length, g (a.getD i 0, l.getD i 0) := by
  intro a
  induction a with
  | nil =>
      intro l hl
      have : l = [] := List.eq_nil_of_length_eq_zero hl.symm
      subst this; simp
  | cons x xs ih =>
      intro l hl
      cases l with
      | nil => simp at hl
      | cons y ys =>
          simp only [List.length_cons] at hl
          rw [List.zip_cons_cons, List.map_cons, List.sum_cons,
            List.length_cons, Finset.sum_range_succ']
          simp only [List.getD_cons_succ, List.getD_cons_zero,
            ih ys (by omega)]
          ring

lemma range_cast_getD (n i : ℕ) (h : i < n) :
    ((List.map (Nat.cast : ℕ → ℚ) (List.range n)).getD i 0) = i := by
  have hlen : i < (List.map (Nat.cast : ℕ → ℚ) (List.range n)).length := by
    rw [List.length_map, List.length_range]; exact h
  rw [List.getD_eq_getElem _ _ hlen, List.getElem_map, List.getElem_range]

lemma den_pos (n : ℕ) (hn : 2 ≤ n) (c : ℚ) :
    0 < ∑ i in Finset.range n, ((i : ℚ) - c) ^ 2 := by
  have hnn : ∀ i ∈ Finset.range n, (0:ℚ) ≤ ((i : ℚ) - c) ^ 2 :=
    fun i _ => sq_nonneg _
  rcases lt_or_eq_of_le (Finset.sum_nonneg hnn) with h | h
  · exact h
  · exfalso
    have hz := (Finset.sum_eq_zero_iff_of_nonneg hnn).1 h.symm
    have e0 := hz 0 (Finset.mem_range.2 (by omega))
    have e1 := hz 1 (Finset.mem_range.2 (by omega))
    rw [pow_eq_zero_iff (by norm_num), sub_eq_zero] at e0 e1
    rw [← e1] at e0
    norm_num at e0

lemma centered_sum_eq (n : ℕ) (hn : 0 < n) (y : ℕ → ℚ) :
    ∑ i in Finset.range n,
        (((i : ℚ) - (∑ j in Finset.range n, (j : ℚ)) / n) *
          (y i - (∑ j in Finset.range n, y j) / n)) =
      (∑ i in Finset.range n, (i : ℚ) * y i) -
        (∑ i in Finset.range n, (i : ℚ)) * (∑ i in Finset.range n, y i) / n := by
  have hn' : (n : ℚ) ≠ 0 := by positivity
  have expand : ∀ i ∈ Finset.range n,
      ((i : ℚ) - (∑ j in Finset.range n, (j : ℚ)) / n) *
          (y i - (∑ j in Finset.range n, y j) / n) =
        (i : ℚ) * y i -
          ((∑ j in Finset.range n, (j : ℚ)) / n) * y i -
          ((∑ j in Finset.range n, y j) / n) * i +
          ((∑ j in Finset.range n, (j : ℚ)) / n) *
            ((∑ j in Finset.range n, y j) / n) := by
    intro i _
    ring
  rw [Finset.sum_congr rfl expand]
  rw [Finset.sum_add_distrib, Finset.sum_sub_distrib, Finset.sum_sub_distrib,
    ← Finset.mul_sum, ← Finset.mul_sum, Finset.sum_const, Finset.card_range,
    nsmul_eq_mul]
  field_simp
  ring

lemma double_sum_identity (n : ℕ) (y : ℕ → ℚ) :
    ∑ i in Finset.range n, ∑ j in Finset.range n,
        ((i : ℚ) - (j : ℚ)) * (y i - y j) =
      2 * ((n : ℚ) * ∑ i in Finset.range n, (i : ℚ) * y i -
        (∑ i in Finset.range n, (i : ℚ)) * (∑ i in Finset.range n, y i)) := by
  have inner : ∀ i ∈ Finset.range n,
      ∑ j in Finset.range n, ((i : ℚ) - (j : ℚ)) * (y i - y j) =
        (n : ℚ) * ((i : ℚ) * y i) - (i : ℚ) * (∑ j in Finset.range n, y j) -
          (∑ j in Finset.range n, (j : ℚ)) * y i +
          (∑ j in Finset.range n, (j : ℚ) * y j) := by
    intro i _
    have e : ∀ j ∈ Finset.range n,
        ((i : ℚ) - (j : ℚ)) * (y i - y j) =
          (i : ℚ) * y i - (i : ℚ) * y j - (j : ℚ) * y i + (j : ℚ) * y j := by
      intro j _
      ring
    rw [Finset.sum_congr rfl e, Finset.sum_add_distrib, Finset.sum_sub_distrib,
      Finset.sum_sub_distrib]
    simp only [← Finset.mul_sum, ← Finset.sum_mul, Finset.sum_const,
      Finset.card_range, nsmul_eq_mul]
    ring
  rw [Finset.sum_congr rfl inner, Finset.sum_add_distrib,
    Finset.sum_sub_distrib, Finset.sum_sub_distrib]
  simp only [← Finset.mul_sum, ← Finset.sum_mul, Finset.sum_const,
    Finset.card_range, nsmul_eq_mul]
  ring

lemma double_sum_pos_of_strict_increase (n : ℕ) (hn : 2 ≤ n) (y : ℕ → ℚ)
    (hy : ∀ i j, i < j → j < n → y i < y j) :
    0 < ∑ i in Finset.range n, ∑ j in Finset.range n,
        ((i : ℚ) - (j : ℚ)) * (y i - y j) := by
  have term_nonneg : ∀ i j, i < n → j < n →
      (0:ℚ) ≤ ((i : ℚ) - (j : ℚ)) * (y i - y j) := by
    intro i j hi hj
    rcases lt_trichotomy i j with h | h | h
    · have h1 : y i < y j := hy i j h hj
      have h2 : (i : ℚ) < (j : ℚ) := by exact_mod_cast h
      nlinarith
    · subst h; simp
    · have h1 : y j < y i := hy j i h hi
      have h2 : (j : ℚ) < (i : ℚ) := by exact_mod_cast h
      nlinarith
  apply Finset.sum_pos'
  · intro i hi
    exact Finset.sum_nonneg fun j hj =>
      term_nonneg i j (Finset.mem_range.1 hi) (Finset.mem_range.1 hj)
  · refine ⟨0, Finset.mem_range.2 (by omega), ?_⟩
    apply Finset.sum_pos'
    · intro j hj
      exact term_nonneg 0 j (by omega) (Finset.mem_range.1 hj)
    · refine ⟨1, Finset.mem_range.2 (by omega), ?_⟩
      have h01 : y 0 < y 1 := hy 0 1 (by omega) (by omega)
      have : ((0 : ℕ) : ℚ) - ((1 : ℕ) : ℚ) = -1 := by norm_num
      rw [this]
      nlinarith

lemma cov_pos (n : ℕ) (hn : 2 ≤ n) (y : ℕ → ℚ)
    (hy : ∀ i j, i < j → j < n → y i < y j) :
    0 < ∑ i in Finset.range n,
        (((i : ℚ) - (∑ j in Finset.range n, (j : ℚ)) / n) *
          (y i - (∑ j in Finset.range n, y j) / n)) := by
  have hn0 : (0 : ℚ) < n := by exact_mod_cast (by omega : 0 < n)
  rw [centered_sum_eq n (by omega) y]
  have hpos := double_sum_pos_of_strict_increase n hn y hy
  rw [double_sum_identity n y] at hpos
  have key : (∑ i in Finset.range n, (i : ℚ) * y i) -
      (∑ i in Finset.range n, (i : ℚ)) * (∑ i in Finset.range n, y i) / n =
      ((n : ℚ) * (∑ i in Finset.range n, (i : ℚ) * y i) -
        (∑ i in Finset.range n, (i : ℚ)) * (∑ i in Finset.range n, y i)) / n := by
    field_simp
    ring
  rw [key]
  apply div_pos _ hn0
  linarith

lemma cov_neg (n : ℕ) (hn : 2 ≤ n) (y : ℕ → ℚ)
    (hy : ∀ i j, i < j → j < n → y j < y i) :
    ∑ i in Finset.range n,
        (((i : ℚ) - (∑ j in Finset.range n, (j : ℚ)) / n) *
          (y i - (∑ j in Finset.range n, y j) / n)) < 0 := by
  have hpos := cov_pos n hn (fun i => -y i)
    (fun i j h1 h2 => neg_lt_neg (hy i j h1 h2))
  have heq : ∑ i in Finset.range n,
      (((i : ℚ) - (∑ j in Finset.range n, (j : ℚ)) / n) *
        ((-y i) - (∑ j in Finset.range n, (-y j)) / n)) =
      -∑ i in Finset.range n,
        (((i : ℚ) - (∑ j in Finset.range n, (j : ℚ)) / n) *
          (y i - (∑ j in Finset.range n, y j) / n)) := by
    rw [← Finset.sum_neg_distrib]
    apply Finset.sum_congr rfl
    intro i _
    rw [Finset.sum_neg_distrib]
    ring
  rw [heq] at hpos
  linarith

def MIN_TREND_FACTOR : ℚ := 0.5
def MAX_TREND_FACTOR : ℚ := 3.0

def trend_decline_factor (scores : List ℚ) : ℚ :=
  if scores.length < 2 then 1.0
  else
    let n : ℚ := scores.length
    let s := scores.reverse
    let xs : List ℚ := List.map (Nat.cast : ℕ → ℚ) (List.range scores.length)
    let mean_x := xs.sum / n
    let mean_s := s.sum / n
    let num := ((xs.zip s).map (fun p => (p.1 - mean_x) * (p.2 - mean_s))).sum
    let den0 := (xs.map (fun x => (x - mean_x) ^ 2)).sum
    let den := if den0 = 0 then 1e-9 else den0
    let slope := num / den
    let factor := 1.0 - slope * 20
    max MIN_TREND_FACTOR (min MAX_TREND_FACTOR factor)

/-- Modelled from the spec's words: the ordinary-least-squares slope of a
sequence `ys` (oldest first) regressed against the indices `0..n-1`, in the
textbook centered form with `xbar = (n-1)/2`. -/
def olsSlope (ys : List ℚ) : ℚ :=
  let n : ℚ := ys.length
  let xbar : ℚ := (n - 1) / 2
  let ybar : ℚ := ys.sum / n
  (∑ i in Finset.range ys.length, (((i : ℚ) - xbar) * (ys.getD i 0 - ybar))) /
    (∑ i in Finset.range ys.length, ((i : ℚ) - xbar) ^ 2)

lemma sum_range_cast (n : ℕ) :
    (∑ j in Finset.range n, (j : ℚ)) = n * (n - 1) / 2 := by
  induction n with
  | zero => simp
  | succ m ih =>
      rw [Finset.sum_range_succ, ih]
      push_cast
      ring

lemma mean_x_eq (n : ℕ) (hn : 2 ≤ n) :
    (∑ j in Finset.range n, (j : ℚ)) / n = ((n : ℚ) - 1) / 2 := by
  have hn0 : (n : ℚ) ≠ 0 := by
    exact_mod_cast (by omega : n ≠ 0)
  rw [sum_range_cast]
  field_simp
  ring

lemma trend_decline_factor_eq_finset (l : List ℚ) (h : 2 ≤ l.length) :
    trend_decline_factor l =
      max MIN_TREND_FACTOR (min MAX_TREND_FACTOR
        (1 - (∑ i in Finset.range l.length,
            (((i : ℚ) - (∑ j in Finset.range l.length, (j : ℚ)) / l.length) *
              (l.reverse.getD i 0 -
                (∑ j in Finset.range l.length, l.reverse.getD j 0) /
                  l.length))) /
          (∑ i in Finset.range l.length,
            ((i : ℚ) - (∑ j in Finset.range l.length, (j : ℚ)) / l.length) ^ 2) *
          20)) := by
  unfold trend_decline_factor
  rw [if_neg (by omega)]
  have hrev : l.reverse.length = l.length := List.length_reverse l
  have hxs : (List.map (Nat.cast : ℕ → ℚ) (List.range l.length)).sum =
      ∑ j in Finset.range l.length, (j : ℚ) :=
    list_range_map_sum _ _
  have hs : l.reverse.sum = ∑ j in Finset.range l.length, l.reverse.getD j 0 := by
    rw [list_sum_eq_sum_getD, hrev]
  have hzip : (((List.map (Nat.cast : ℕ → ℚ) (List.range l.length)).zip
        l.reverse).map (fun p =>
          (p.1 - (∑ j in Finset.range l.length, (j : ℚ)) / l.length) *
          (p.2 - (∑ j in Finset.range l.length, l.reverse.getD j 0) /
            l.length))).sum =
      ∑ i in Finset.range l.length,
        (((i : ℚ) - (∑ j in Finset.range l.length, (j : ℚ)) / l.length) *
          (l.reverse.getD i 0 -
            (∑ j in Finset.range l.length, l.reverse.getD j 0) / l.length)) := by
    rw [zip_map_sum _ _ _ (by rw [List.length_map, List.length_range, hrev]),
      hrev]
    apply Finset.sum_congr rfl
    intro i hi
    rw [range_cast_getD _ _ (Finset.mem_range.1 hi)]
  have hden : ((List.map (Nat.cast : ℕ → ℚ) (List.range l.length)).map
        (fun x => (x - (∑ j in Finset.range l.length, (j : ℚ)) / l.length) ^ 2)).sum =
      ∑ i in Finset.range l.length,
        ((i : ℚ) - (∑ j in Finset.range l.length, (j : ℚ)) / l.length) ^ 2 := by
    rw [List.map_map, list_range_map_sum]
    rfl
  simp only [hxs, hs, hzip, hden]
  rw [if_neg (ne_of_gt (den_pos l.length h _))]
  norm_num

lemma trend_eq_ols (l : List ℚ) (h : 2 ≤ l.length) :
    trend_decline_factor l =
      max MIN_TREND_FACTOR (min MAX_TREND_FACTOR
        (1 - olsSlope l.reverse * 20)) := by
  rw [trend_decline_factor_eq_finset l h]
  unfold olsSlope
  simp only [List.length_reverse]
  rw [mean_x_eq l.length h, list_sum_eq_sum_getD l.reverse]
  simp only [List.length_reverse]

lemma chain'_lt_getD (l : List ℚ) (h : List.Chain' (· < ·) l) :
    ∀ i j, i < j → j < l.length → l.getD i 0 < l.getD j 0 := by
  have hp := List.chain'_iff_pairwise.1 h
  rw [List.pairwise_iff_getElem] at hp
  intro i j hij hj
  have hi : i < l.length := lt_trans hij hj
  rw [List.getD_eq_getElem l 0 hi, List.getD_eq_getElem l 0 hj]
  exact hp i j hi hj hij

lemma chain'_gt_getD (l : List ℚ) (h : List.Chain' (· > ·) l) :
    ∀ i j, i < j → j < l.length → l.getD j 0 < l.getD i 0 := by
  haveI : IsTrans ℚ (· > ·) := ⟨fun _ _ _ h1 h2 => lt_trans h2 h1⟩
  have hp := List.chain'_iff_pairwise.1 h
  rw [List.pairwise_iff_getElem] at hp
  intro i j hij hj
  have hi : i < l.length := lt_trans hij hj
  rw [List.getD_eq_getElem l 0 hi, List.getD_eq_getElem l 0 hj]
  exact hp i j hi hj hij

/-- C2: the trend factor is exactly `1.0` for fewer than two observations;
for two or more it equals `clamp(1 - slope*20, 0.5, 3.0)` where `slope` is
the ordinary-least-squares slope of the oldest-to-newest sequence, hence
lies within `[0.5, 3.0]`; a strictly increasing (oldest-to-newest) window
yields a factor `< 1.0` and a strictly decreasing one a factor `> 1.0`. -/
theorem trend_decline_factor_spec (scores : List ℚ) :
    (scores.length < 2 → trend_decline_factor scores = 1.0) ∧
    (2 ≤ scores.length →
      trend_decline_factor scores =
        max MIN_TREND_FACTOR (min MAX_TREND_FACTOR
          (1 - olsSlope scores.reverse * 20)) ∧
      MIN_TREND_FACTOR ≤ trend_decline_factor scores ∧
      trend_decline_factor scores ≤ MAX_TREND_FACTOR) ∧
    (2 ≤ scores.length → List.Chain' (· < ·) scores.reverse →
      trend_decline_factor scores < 1) ∧
    (2 ≤ scores.length → List.Chain' (· > ·) scores.reverse →
      1 < trend_decline_factor scores) := by
  refine ⟨?_, ?_, ?_, ?_⟩
  · intro h
    unfold trend_decline_factor
    rw [if_pos h]
  · intro h
    refine ⟨trend_eq_ols scores h, ?_, ?_⟩
    · rw [trend_eq_ols scores h]
      exact le_max_left _ _
    · rw [trend_eq_ols scores h]
      exact max_le (by norm_num [MIN_TREND_FACTOR, MAX_TREND_FACTOR])
        (min_le_left _ _)
  · intro h hchain
    rw [trend_decline_factor_eq_finset scores h]
    have hy := chain'_lt_getD scores.reverse hchain
    rw [List.length_reverse] at hy
    have hnum := cov_pos scores.length h (fun i => scores.reverse.getD i 0)
      (fun i j h1 h2 => hy i j h1 h2)
    have hden := den_pos scores.length h
      ((∑ j in Finset.range scores.length, (j : ℚ)) / scores.length)
    have hslope : 0 < (∑ i in Finset.range scores.length,
        (((i : ℚ) - (∑ j in Finset.range scores.length, (j : ℚ)) /
            scores.length) *
          (scores.reverse.getD i 0 -
            (∑ j in Finset.range scores.length, scores.reverse.getD j 0) /
              scores.length))) /
        (∑ i in Finset.range scores.length,
          ((i : ℚ) - (∑ j in Finset.range scores.length, (j : ℚ)) /
            scores.length) ^ 2) := div_pos hnum hden
    apply max_lt
    · norm_num [MIN_TREND_FACTOR]
    · exact lt_of_le_of_lt (min_le_right _ _) (by nlinarith)
  · intro h hchain
    rw [trend_decline_factor_eq_finset scores h]
    have hy := chain'_gt_getD scores.reverse hchain
    rw [List.length_reverse] at hy
    have hnum := cov_neg scores.length h (fun i => scores.reverse.getD i 0)
      (fun i j h1 h2 => hy i j h1 h2)
    have hden := den_pos scores.length h
      ((∑ j in Finset.range scores.length, (j : ℚ)) / scores.length)
    have hslope : (∑ i in Finset.range scores.length,
        (((i : ℚ) - (∑ j in Finset.range scores.length, (j : ℚ)) /
            scores.length) *
          (scores.reverse.getD i 0 -
            (∑ j in Finset.range scores.length, scores.reverse.getD j 0) /
              scores.length))) /
        (∑ i in Finset.range scores.length,
          ((i : ℚ) - (∑ j in Finset.range scores.length, (j : ℚ)) /
            scores.length) ^ 2) < 0 := div_neg_of_neg_of_pos hnum hden
    refine lt_of_lt_of_le ?_ (le_max_right _ _)
    apply lt_min
    · norm_num [MAX_TREND_FACTOR]
    · nlinarith

/-- Witness for C2 at the windows `[0.9]`, `[0.9, 0.8]` and `[0.8, 0.9]`. -/
theorem trend_decline_factor_spec_witness :
    trend_decline_factor [0.9] = 1.0 ∧
    (trend_decline_factor [0.9, 0.8] =
      max MIN_TREND_FACTOR (min MAX_TREND_FACTOR
        (1 - olsSlope ([0.9, 0.8] : List ℚ).reverse * 20)) ∧
      MIN_TREND_FACTOR ≤ trend_decline_factor [0.9, 0.8] ∧
      trend_decline_factor [0.9, 0.8] ≤ MAX_TREND_FACTOR) ∧
    trend_decline_factor [0.9, 0.8] < 1 ∧
    1 < trend_decline_factor [0.8, 0.9] :=
  ⟨(trend_decline_factor_spec [0.9]).1 (by norm_num),
    (trend_decline_factor_spec [0.9, 0.8]).2.1 (by norm_num),
    (trend_decline_factor_spec [0.9, 0.8]).2.2.1 (by norm_num)
      (by simp [List.chain'_cons]; norm_num),
    (trend_decline_factor_spec [0.8, 0.9]).2.2.2 (by norm_num)
      (by simp [List.chain'_cons]; norm_num)⟩

/-- `TREND_WINDOW_DAYS` (config.py line 20). -/
def TREND_WINDOW_DAYS : ℕ := 5

/-- Embeds `_recent_scores` (agent.py lines 66-77): the `window` most recent
scores at or before day `d`, most recent first (`ORDER BY date DESC LIMIT
window`).  A per-element score series is a function from day number to that
day's optional score; days without a row are skipped. -/
def recent_scores (series : ℕ → Option ℚ) (d : ℕ) (window : ℕ) : List ℚ :=
  ((List.range (d + 1)).reverse.filterMap series).take window

/-- The raw (pre-attention) risk accumulated by `_term_risk` (agent.py lines
123-164): for every rule threshold and every element series, if the score on
day `d` exists and is below the threshold, add
`criticality * gap * trend_factor` over the trailing window.  The source
then multiplies this total by the concept's attention weight and rounds to 4
decimals; the claim concerns the raw product, so only the accumulation is
embedded. -/
def term_risk_raw (criticality : ℚ) (thresholds : List ℚ)
    (tdes : List (ℕ → Option ℚ)) (d : ℕ) : ℚ :=
  (thresholds.map (fun threshold =>
    (tdes.map (fun series =>
      match series d with
      | none => 0
      | some sc =>
          if sc < threshold then
            criticality * (threshold - sc) *
              trend_decline_factor (recent_scores series d TREND_WINDOW_DAYS)
          else 0)).sum)).sum

lemma c5_rec :
    recent_scores (fun n => ([0.82, 0.83, 0.84, 0.85, 0.86] : List ℚ)[n]?) 4
      TREND_WINDOW_DAYS = [0.86, 0.85, 0.84, 0.83, 0.82] := rfl

lemma c5_tdf :
    trend_decline_factor [0.86, 0.85, 0.84, 0.83, 0.82] = 0.8 := by
  norm_num [trend_decline_factor, List.range_succ, MIN_TREND_FACTOR,
    MAX_TREND_FACTOR, max_def, min_def, List.zip_cons_cons, List.sum_cons]

lemma c5_raw :
    term_risk_raw 0.95 [0.90]
      [fun n => ([0.82, 0.83, 0.84, 0.85, 0.86] : List ℚ)[n]?] 4 =
      0.95 * (0.90 - 0.86) * 0.8 := by
  simp only [term_risk_raw, List.map_cons, List.map_nil, List.sum_cons,
    List.sum_nil]
  rw [show ([0.82, 0.83, 0.84, 0.85, 0.86] : List ℚ)[4]? = some (0.86 : ℚ) from rfl]
  simp only
  rw [if_pos (by norm_num : (0.86 : ℚ) < 0.90), c5_rec, c5_tdf]
  ring

/-- C5 counterexample: for the one score series whose trailing 5-day window
at query day 4 is `[0.82, 0.83, 0.84, 0.85, 0.86]` oldest-to-newest (scores
ascending by date), the query-date score is `0.86` — not `0.82` as the claim
has it — so the breach gap is `0.04`, not `0.08`, and the raw risk is
`0.95 * 0.04 * 0.8 = 0.0304`, not `0.95 * 0.08 * factor`. -/
theorem term_risk_scenario_counterexample :
    (recent_scores (fun n => ([0.82, 0.83, 0.84, 0.85, 0.86] : List ℚ)[n]?) 4
        TREND_WINDOW_DAYS).reverse = [0.82, 0.83, 0.84, 0.85, 0.86] ∧
    (fun n => ([0.82, 0.83, 0.84, 0.85, 0.86] : List ℚ)[n]?) 4 ≠
      some (0.82 : ℚ) ∧
    term_risk_raw 0.95 [0.90]
        [fun n => ([0.82, 0.83, 0.84, 0.85, 0.86] : List ℚ)[n]?] 4 ≠
      0.95 * 0.08 *
        trend_decline_factor
          (recent_scores (fun n => ([0.82, 0.83, 0.84, 0.85, 0.86] : List ℚ)[n]?)
            4 TREND_WINDOW_DAYS) := by
  refine ⟨rfl, ?_, ?_⟩
  · rw [show (fun n => ([0.82, 0.83, 0.84, 0.85, 0.86] : List ℚ)[n]?) 4 =
      some (0.86 : ℚ) from rfl]
    simp only [ne_eq, Option.some.injEq]
    norm_num
  · rw [c5_raw, c5_rec, c5_tdf]
    norm_num

/-- C5 (amended): with criticality `0.95`, one rule threshold `0.90`, and
one element whose trailing window at the query date is
`[0.82, 0.83, 0.84, 0.85, 0.86]` oldest-to-newest, the query-date score is
`0.86` (the newest window entry), the breach gap is `0.90 - 0.86 = 0.04`,
the trend factor is `0.8 < 1.0` (improving trend), and the concept's raw
risk equals `0.95 * 0.04 * 0.8 = 0.0304`, strictly less than
`0.95 * 0.04 = 0.038`. -/
theorem term_risk_improving_trend_scenario :
    (recent_scores (fun n => ([0.82, 0.83, 0.84, 0.85, 0.86] : List ℚ)[n]?) 4
        TREND_WINDOW_DAYS).reverse = [0.82, 0.83, 0.84, 0.85, 0.86] ∧
    (fun n => ([0.82, 0.83, 0.84, 0.85, 0.86] : List ℚ)[n]?) 4 =
      some (0.86 : ℚ) ∧
    trend_decline_factor
        (recent_scores (fun n => ([0.82, 0.83, 0.84, 0.85, 0.86] : List ℚ)[n]?)
          4 TREND_WINDOW_DAYS) = 0.8 ∧
    term_risk_raw 0.95 [0.90]
        [fun n => ([0.82, 0.83, 0.84, 0.85, 0.86] : List ℚ)[n]?] 4 =
      0.95 * (0.90 - 0.86) *
        trend_decline_factor
          (recent_scores (fun n => ([0.82, 0.83, 0.84, 0.85, 0.86] : List ℚ)[n]?)
            4 TREND_WINDOW_DAYS) ∧
    term_risk_raw 0.95 [0.90]
        [fun n => ([0.82, 0.83, 0.84, 0.85, 0.86] : List ℚ)[n]?] 4 <
      0.95 * (0.90 - 0.86) := by
  refine ⟨rfl, rfl, ?_, ?_, ?_⟩
  · rw [c5_rec, c5_tdf]
  · rw [c5_raw, c5_rec, c5_tdf]
  · rw [c5_raw]
    norm_num
